import Mathlib

/-!
Verification of the KubeSentinel runtime security-event pipeline.

This file is a shallow embedding, in Lean 4, of the runtime core of the
KubeSentinel repository (Go): the Falco event monitor, the event-processor
worker loop with its feature extractor and risk scorer, and the forensic
vault with its retention policy.  Go machine integers become `Nat`/`Int`
(the counters involved never overflow in any property below), Go maps
keyed by strings become association lists, and fallible Go functions
return their result together with an `Option String` mirroring the Go
`error` return value.

Go `float64` risk scores are embedded as integers (`ℤ`) denominated in
hundredths: the source constant `0.3` is `30`, `0.95` is
`95`, and so on.  Every score computation in the source is a sum of the
fixed constants `0.3, 0.2, 0.2, 0.4, 0.95` compared with `>` against one
of `0.75, 0.7, 0.95` or combined by max; on these the hundredths
embedding is exact, and the possible IEEE-double sums differ from the
exact values by less than `10^-15` while every threshold is at distance
at least `0.05` from every reachable sum, so no comparison in the source
can be flipped by float rounding: the embedding and the Go code decide
every branch identically.
-/

/-! ## Data model (internal/runtime/monitor.go, internal/runtime/processor.go) -/

/-- Container-specific information attached to a Falco event
(`ContainerInfo` in monitor.go). -/
structure ContainerInfo where
  ID : String
  Name : String
  Image : String
  Namespace : String
  PodName : String
deriving DecidableEq, Repr

/-- The `output_fields` mapping of a Falco event.  The Go source stores it
as `map[string]interface{}` and reads exactly six keys, each with a string
type assertion (`event.Fields["proc.name"].(string)` and so on); this
record holds those six projections, with `none` standing for
key-absent-or-not-a-string, which the source treats identically. -/
structure OutputFields where
  procName : Option String
  procCmdline : Option String
  procPname : Option String
  userUid : Option String
  fdName : Option String
  fdSip : Option String
deriving DecidableEq, Repr

/-- A security event from Falco (`SecurityEvent` in monitor.go).
Timestamps are modelled as integers (epoch seconds). `Fields = none`
models a nil `output_fields` map. -/
structure SecurityEvent where
  Timestamp : Int
  Priority : String
  Rule : String
  Output : String
  Source : String
  Tags : List String
  Fields : Option OutputFields
  Container : ContainerInfo
deriving DecidableEq, Repr

/-- Extracted behavioral features (`BehavioralFeatures` in processor.go).
`SyscallCount` (a Go map, never written by `Extract`) is an association
list; `TimeWindow` is the hour bucket computed by `getTimeWindow`. -/
structure BehavioralFeatures where
  ProcessName : String
  ProcessFrequency : Nat
  SyscallCount : List (String × Nat)
  FileAccessCount : Nat
  NetworkConnCount : Nat
  SensitiveFiles : List String
  CommandLine : String
  ParentProcess : String
  UserID : String
  TimeWindow : Int
  ContainerID : String
  Namespace : String
deriving DecidableEq, Repr

/-- An event after processing (`ProcessedEvent` in processor.go). -/
structure ProcessedEvent where
  Original : SecurityEvent
  Features : BehavioralFeatures
  Timestamp : Int
  RiskScore : ℤ
  Anomaly : Bool
deriving DecidableEq, Repr

/-- Processing statistics (`ProcessorMetrics` in processor.go).  The Go
fields are `int64` counters only ever incremented atomically; they are
modelled as `Nat`. -/
structure ProcessorMetrics where
  TotalEvents : Nat
  ProcessedEvents : Nat
  AnomaliesDetected : Nat
  ErrorCount : Nat
deriving DecidableEq, Repr

/-! ## String helpers (processor.go bottom, duplicated in monitor.go) -/

/-- Core of the source's recursive `contains(s, substr)` helper, over the
character lists of the two strings.  It mirrors the Go body literally:
`len(s) >= len(substr) && (s == substr || (len(s) > 0 && len(substr) > 0 &&
(s[0:min(len(s),len(substr))] == substr[0:min(len(s),len(substr))] ||
contains(s[1:], substr))))`. -/
def containsAux : List Char → List Char → Bool
  | [], substr =>
      decide (substr.length ≤ ([] : List Char).length) && (([] : List Char) == substr)
  | c :: rest, substr =>
      decide (substr.length ≤ (c :: rest).length) &&
        ((c :: rest) == substr ||
          (decide (0 < (c :: rest).length) && decide (0 < substr.length) &&
            (((c :: rest).take (min (c :: rest).length substr.length) ==
                substr.take (min (c :: rest).length substr.length)) ||
              containsAux rest substr)))

/-- The source's `contains` substring test (processor.go / monitor.go). -/
def goContains (s substr : String) : Bool :=
  containsAux s.data substr.data

/-- Fixed substring patterns marking a file path as sensitive
(`isSensitiveFile` in processor.go). -/
def sensitivePatterns : List String :=
  ["/etc/passwd", "/etc/shadow", "/etc/ssh", "/root/.ssh", ".kube/config",
   "token", "secret", "credential", ".aws/credentials"]

/-- `isSensitiveFile` from processor.go: a path is sensitive when it
contains any of the fixed patterns as a substring. -/
def isSensitiveFile (path : String) : Bool :=
  sensitivePatterns.any (fun pattern => goContains path pattern)

/-! ## Rule-based and heuristic risk scoring (processor.go) -/

/-- The fixed denylist of known-dangerous rule names (`knownThreats` local
of `isKnownThreat` in processor.go). -/
def knownThreats : List String :=
  ["Terminal shell in container", "Modify binary dirs", "Write below etc",
   "Sensitive file opened for reading", "Netcat Remote Code Execution",
   "Launch Suspicious Network Tool"]

/-- `isKnownThreat` from processor.go: critical/emergency priority, or an
exact rule-name match against the denylist. -/
def isKnownThreat (event : SecurityEvent) : Bool :=
  if event.Priority == "Critical" || event.Priority == "Emergency" then true
  else knownThreats.any (fun threat => event.Rule == threat)

/-- The fixed set of suspicious tool names (`suspiciousProcesses` local of
`getAIRiskScore` in processor.go). -/
def suspiciousProcesses : List String :=
  ["nc", "ncat", "netcat", "wget", "curl"]

/-- `getAIRiskScore` from processor.go: the placeholder heuristic summing
fixed additive weights over the extracted features, with no clamping.
Weights in hundredths: `30/20/20/40` are the source's `0.3/0.2/0.2/0.4`. -/
def getAIRiskScore (features : BehavioralFeatures) : ℤ :=
  let score : ℤ := 0
  let score := if features.SensitiveFiles.length > 0 then score + 30 else score
  let score := if features.NetworkConnCount > 10 then score + 20 else score
  let score := if features.FileAccessCount > 50 then score + 20 else score
  let score :=
    if suspiciousProcesses.any (fun proc => features.ProcessName == proc) then
      score + 40
    else score
  score

/-! ## Feature extractor (processor.go) -/

/-- The `FeatureExtractor`'s `processFrequency map[string]int`, as an
association list. -/
abbrev ProcessFrequencyTable := List (String × Nat)

/-- `updateProcessFrequency` from processor.go: `fe.processFrequency[proc]++`
(a missing key reads as 0, so the first update stores 1). -/
def updateProcessFrequency : ProcessFrequencyTable → String → ProcessFrequencyTable
  | [], proc => [(proc, 1)]
  | (q, n) :: rest, proc =>
      if q = proc then (q, n + 1) :: rest
      else (q, n) :: updateProcessFrequency rest proc

/-- `getProcessFrequency` from processor.go: map lookup with Go's zero
value 0 for a missing key. -/
def getProcessFrequency : ProcessFrequencyTable → String → Nat
  | [], _ => 0
  | (q, n) :: rest, proc => if q = proc then n else getProcessFrequency rest proc

/-- `getTimeWindow` from processor.go buckets the event timestamp by hour
(the source renders the bucket as the string `"2006-01-02-15"`-formatted
hour; here the bucket is the hour number itself — an injective recoding
of the same partition of timestamps). -/
def getTimeWindow (t : Int) : Int :=
  t / 3600

/-- The tail of `Extract` (processor.go): the reads of the optional
`proc.cmdline`, `proc.pname`, `user.uid`, `fd.name` and `fd.sip` output
fields, in source order, starting from an already-initialised feature
record.  Split from `Extract` so that lemmas can state that this part
never touches `ProcessName`/`ProcessFrequency`. -/
def extractOptionalFields (features : BehavioralFeatures) (flds : OutputFields) :
    BehavioralFeatures :=
  let features :=
    match flds.procCmdline with
    | some cmdline => { features with CommandLine := cmdline }
    | none => features
  let features :=
    match flds.procPname with
    | some parent => { features with ParentProcess := parent }
    | none => features
  let features :=
    match flds.userUid with
    | some uid => { features with UserID := uid }
    | none => features
  let features :=
    match flds.fdName with
    | some fdName =>
        let features := { features with FileAccessCount := features.FileAccessCount + 1 }
        if isSensitiveFile fdName then
          { features with SensitiveFiles := features.SensitiveFiles ++ [fdName] }
        else features
    | none => features
  let features :=
    match flds.fdSip with
    | some _ => { features with NetworkConnCount := features.NetworkConnCount + 1 }
    | none => features
  features

/-- `Extract` from processor.go: build the base feature record, then (when
the `output_fields` map is non-nil) handle `proc.name` — update the shared
frequency table, then read the updated count — and the remaining optional
fields.  Returns the features together with the updated frequency table
(the Go method mutates `fe.processFrequency` in place). -/
def Extract (table : ProcessFrequencyTable) (event : SecurityEvent) :
    BehavioralFeatures × ProcessFrequencyTable :=
  let features : BehavioralFeatures :=
    { ProcessName := ""
      ProcessFrequency := 0
      SyscallCount := []
      FileAccessCount := 0
      NetworkConnCount := 0
      SensitiveFiles := []
      CommandLine := ""
      ParentProcess := ""
      UserID := ""
      TimeWindow := getTimeWindow event.Timestamp
      ContainerID := event.Container.ID
      Namespace := event.Container.Namespace }
  match event.Fields with
  | none => (features, table)
  | some flds =>
      match flds.procName with
      | some proc =>
          let table := updateProcessFrequency table proc
          (extractOptionalFields
            { features with
                ProcessName := proc
                ProcessFrequency := getProcessFrequency table proc } flds, table)
      | none => (extractOptionalFields features flds, table)

/-! ## Forensic vault data model (forensics vault section of the scanner source) -/

/-- A stored forensic record (`ForensicRecord` in the vault source),
restricted to the fields the vault's own operations read or write:
`StoreRecord` reads/assigns `ID` and `Timestamp`, `ShouldRetain` reads
`IncidentType`, `Severity` and `RiskScore`, and `ListRecords` reads
`Timestamp`.  The payload fields the source carries but never inspects
(`Container`, `Events`, `SystemCalls`, `NetworkTraces`, `FileOperations`,
`Metadata`) are omitted; they ride along opaquely in the source.
`Timestamp = 0` models the Go zero `time.Time` (`Timestamp.IsZero()`). -/
structure ForensicRecord where
  ID : String
  Timestamp : Int
  IncidentType : String
  Severity : String
  RiskScore : ℤ
deriving DecidableEq, Repr

/-- One file of the vault's storage directory: either a record, or a file
that fails to read or to unmarshal (`ListRecords` skips both with
`continue`). -/
inductive FileEntry where
  | corrupt : FileEntry
  | record : ForensicRecord → FileEntry
deriving DecidableEq, Repr

/-! ## Event processor (processor.go) -/

/-- One line of the `ANOMALY DETECTED` log emitted by `storeForensicData`
(processor.go): the three values the `Printf` interpolates. -/
structure AnomalyLogEntry where
  RiskScore : ℤ
  Rule : String
  ContainerName : String
deriving DecidableEq, Repr

/-- Sequential state of one `EventProcessor` together with its
`FeatureExtractor` and the forensic vault directory it could write to.
`processFrequency` is the extractor's shared table, `Metrics` the atomic
counters, `anomalyLog` the lines printed by `storeForensicData`, and
`vaultFiles` the vault contents — which `processEvent` never touches,
because `storeForensicData` in the source is a placeholder that only
logs (its own comment: "This would integrate with the forensic vault.
For now, just log"). -/
structure EventProcessorState where
  processFrequency : ProcessFrequencyTable
  Metrics : ProcessorMetrics
  anomalyLog : List AnomalyLogEntry
  vaultFiles : List FileEntry
deriving DecidableEq, Repr

/-- `storeForensicData` from processor.go: prints the anomaly line and
returns a nil error; it performs no vault write. -/
def storeForensicData (log : List AnomalyLogEntry) (event : ProcessedEvent) :
    (List AnomalyLogEntry) × Option String :=
  (log ++ [{ RiskScore := event.RiskScore
             Rule := event.Original.Rule
             ContainerName := event.Original.Container.Name }], none)

/-- `processEvent` from processor.go: extract features, apply rule-based
detection (score `95` = the source's `0.95`, anomaly, counter), take the
max with the heuristic score, flag an anomaly when the heuristic exceeds
`75` (= `0.75`), and pass anomalous events to `storeForensicData`.
Returns the updated state, the `ProcessedEvent` the body constructed, and
the Go `error` result (`none` = nil).  `now` is the wall-clock value the
source reads with `time.Now()`.  Where the source updates the verdict and
the anomaly counter inside one `if`, this embedding uses two `if`s with
the same condition — behaviour-identical, and friendlier to case
analysis. -/
def processEvent (st : EventProcessorState) (now : Int) (event : SecurityEvent) :
    EventProcessorState × ProcessedEvent × Option String :=
  let features := (Extract st.processFrequency event).1
  let table := (Extract st.processFrequency event).2
  let processed : ProcessedEvent :=
    { Original := event
      Features := features
      Timestamp := now
      RiskScore := 0
      Anomaly := false }
  let processed :=
    if isKnownThreat event then { processed with RiskScore := 95, Anomaly := true }
    else processed
  let metrics :=
    if isKnownThreat event then
      { st.Metrics with AnomaliesDetected := st.Metrics.AnomaliesDetected + 1 }
    else st.Metrics
  let aiScore := getAIRiskScore features
  let processed :=
    if aiScore > processed.RiskScore then { processed with RiskScore := aiScore }
    else processed
  let processed :=
    if aiScore > 75 then { processed with Anomaly := true } else processed
  let metrics :=
    if aiScore > 75 then
      { metrics with AnomaliesDetected := metrics.AnomaliesDetected + 1 }
    else metrics
  if processed.Anomaly then
    let log := (storeForensicData st.anomalyLog processed).1
    match (storeForensicData st.anomalyLog processed).2 with
    | none =>
        ({ st with processFrequency := table, Metrics := metrics, anomalyLog := log },
         processed, none)
    | some err =>
        ({ st with processFrequency := table, Metrics := metrics, anomalyLog := log },
         processed, some ("failed to store forensic data: " ++ err))
  else
    ({ st with processFrequency := table, Metrics := metrics }, processed, none)

/-- One iteration of the `worker` loop body (processor.go) for a received
event: increment `TotalEvents`, run `processEvent`, then increment
`ErrorCount` on a non-nil error (and `continue`) or `ProcessedEvents` on
success. -/
def workerStep (st : EventProcessorState) (now : Int) (event : SecurityEvent) :
    EventProcessorState :=
  let st := { st with Metrics := { st.Metrics with TotalEvents := st.Metrics.TotalEvents + 1 } }
  match processEvent st now event with
  | (st', _, some _) =>
      { st' with Metrics := { st'.Metrics with ErrorCount := st'.Metrics.ErrorCount + 1 } }
  | (st', _, none) =>
      { st' with Metrics := { st'.Metrics with ProcessedEvents := st'.Metrics.ProcessedEvents + 1 } }

/-- A single worker draining a sequence of events, each tagged with the
wall-clock value at which it is processed. -/
def runWorker (st : EventProcessorState) : List (Int × SecurityEvent) → EventProcessorState
  | [] => st
  | (now, event) :: rest => runWorker (workerStep st now event) rest

/-- What a blocked worker receives from the `select` in its loop
(processor.go): context cancellation, a closed channel, or an event. -/
inductive WorkerSignal where
  | ctxDone : WorkerSignal
  | channelClosed : WorkerSignal
  | received : Int → SecurityEvent → WorkerSignal

/-- Outcome of one turn of the worker loop. -/
inductive WorkerOutcome where
  | exited : EventProcessorState → WorkerOutcome
  | continues : EventProcessorState → WorkerOutcome

/-- One turn of the `worker` loop (processor.go): `ctx.Done()` and a
closed channel (`!ok`) both `return` with the state untouched; a received
event runs the loop body and continues. -/
def workerIteration (st : EventProcessorState) : WorkerSignal → WorkerOutcome
  | .ctxDone => .exited st
  | .channelClosed => .exited st
  | .received now event => .continues (workerStep st now event)

/-! ## Forensic vault operations (vault section of the scanner source) -/

/-- `ShouldRetain` from the retention policy: keep critical/high severity
unconditionally, keep medium severity when the risk score exceeds `70`
(= the source's `0.7`), keep any record whose incident type is set and is
not `"false-positive"`, drop the rest. -/
def ShouldRetain (record : ForensicRecord) : Bool :=
  if record.Severity == "critical" || record.Severity == "high" then true
  else if record.Severity == "medium" && decide (record.RiskScore > 70) then true
  else if record.IncidentType != "" && record.IncidentType != "false-positive" then true
  else false

/-- `StoreRecord` from the vault source: default the `ID` from the
generator and the `Timestamp` from the clock when unset, reject any
record the retention policy declines with the Go error
`"record does not meet retention criteria"`, and otherwise append the
record file to the storage directory.  JSON marshalling and the file
write are modelled as succeeding (their failure branches depend only on
the host filesystem, not on the record); the policy check precedes both
in the source, so the rejection path is exact.  Returns the directory
after the call and the Go `error` result. -/
def StoreRecord (files : List FileEntry) (now : Int) (genId : String)
    (record : ForensicRecord) : List FileEntry × Option String :=
  let record := if record.ID == "" then { record with ID := genId } else record
  let record := if record.Timestamp == 0 then { record with Timestamp := now } else record
  if ! ShouldRetain record then
    (files, some "record does not meet retention criteria")
  else
    (files ++ [FileEntry.record record], none)

/-- `ListRecords` from the vault source, as structural recursion over the
directory listing in place of the source's `for` loop: a file that fails
to read or unmarshal is skipped (`continue`), and a parsed record is kept
exactly when `record.Timestamp.After(from) && record.Timestamp.Before(to)`
— both strict comparisons. -/
def ListRecords : List FileEntry → Int → Int → List ForensicRecord
  | [], _, _ => []
  | FileEntry.corrupt :: rest, fromT, toT => ListRecords rest fromT toT
  | FileEntry.record r :: rest, fromT, toT =>
      if fromT < r.Timestamp ∧ r.Timestamp < toT then
        r :: ListRecords rest fromT toT
      else
        ListRecords rest fromT toT

/-! ## Stream ingestion monitor (monitor.go) -/

/-- Sequential state of the `Monitor`: the bounded event channel
(capacity `BufferSize` from the config), the processor it owns, and the
lines it has printed. -/
structure MonitorState where
  queueCapacity : Nat
  queue : List SecurityEvent
  processor : EventProcessorState
  log : List String
deriving DecidableEq, Repr

/-- The non-blocking enqueue from `consumeFalcoEvents` (monitor.go):
`select { case m.EventChan <- event: default: fmt.Println("Warning: event
channel full, dropping event") }`.  A send on a buffered Go channel
succeeds exactly when the buffer holds fewer than `cap` items; otherwise
the `default` branch runs, dropping the event and printing the warning —
no counter anywhere in the monitor or processor is touched. -/
def enqueueFalcoEvent (st : MonitorState) (event : SecurityEvent) : MonitorState :=
  if st.queue.length < st.queueCapacity then
    { st with queue := st.queue ++ [event] }
  else
    { st with log := st.log ++ ["Warning: event channel full, dropping event"] }

/-! ## Shutdown sequence (monitor.go `Stop`, processor.go `Start`) -/

/-- The concurrent tasks of the runtime monitor: the Falco ingestion
task, the periodic metrics reporter, and the processing workers (worker
`id` of the pool started by `EventProcessor.Start`). -/
inductive TaskKind where
  | ingestion : TaskKind
  | metricsReporter : TaskKind
  | worker : Nat → TaskKind
deriving DecidableEq, Repr

/-- The observable actions `Monitor.Stop` can perform, in order. -/
inductive ShutdownAction where
  | cancelToken : ShutdownAction
  | waitFor : TaskKind → ShutdownAction
  | closeQueue : ShutdownAction
deriving DecidableEq, Repr

/-- Whether a shutdown action is a join on a processing worker. -/
def ShutdownAction.isWorkerWait : ShutdownAction → Bool
  | .waitFor (.worker _) => true
  | _ => false

/-- The tasks registered on the `Monitor`'s WaitGroup: exactly the two
`m.wg.Add(1)` calls in `Monitor.Start`, for the `consumeFalcoEvents`
goroutine and the `collectMetrics` goroutine.  The processing workers are
registered on a different WaitGroup — the one local to
`EventProcessor.Start`, which only a detached goroutine inside `Start`
ever waits on; `Monitor.Stop` has no access to it. -/
def monitorWaitGroupTasks : List TaskKind :=
  [TaskKind.ingestion, TaskKind.metricsReporter]

/-- The trace of `Monitor.Stop` (monitor.go): `m.cancel()`, then
`m.wg.Wait()` — a join on each task registered on the monitor's
WaitGroup — then `close(m.EventChan)`. -/
def stopSequence : List ShutdownAction :=
  [ShutdownAction.cancelToken] ++
    monitorWaitGroupTasks.map ShutdownAction.waitFor ++
    [ShutdownAction.closeQueue]

/-! ## Initial states -/

/-- The zeroed counters `NewEventProcessor` starts with. -/
def initialMetrics : ProcessorMetrics :=
  { TotalEvents := 0, ProcessedEvents := 0, AnomaliesDetected := 0, ErrorCount := 0 }

/-- A fresh `EventProcessor` with its `NewFeatureExtractor` table, an
empty log, and an empty vault directory. -/
def initialProcessorState : EventProcessorState :=
  { processFrequency := []
    Metrics := initialMetrics
    anomalyLog := []
    vaultFiles := [] }

/-! ## Concrete events and the end-to-end scenario -/

/-- A container context shared by the concrete test events. -/
def sampleContainer : ContainerInfo :=
  { ID := "c1", Name := "app", Image := "nginx:1.25", Namespace := "default",
    PodName := "app-7f6b9" }

/-- An `output_fields` map with no entries the extractor reads. -/
def emptyFields : OutputFields :=
  { procName := none, procCmdline := none, procPname := none, userUid := none,
    fdName := none, fdSip := none }

/-- Scenario event 1: priority `"Critical"`, otherwise unremarkable. -/
def criticalEvent : SecurityEvent :=
  { Timestamp := 1000, Priority := "Critical", Rule := "Custom critical rule",
    Output := "critical activity", Source := "syscall", Tags := [],
    Fields := some emptyFields, Container := sampleContainer }

/-- The `output_fields` of the shadow event: `proc.name = "cat"` and
`fd.name = "/etc/shadow"`. -/
def shadowFields : OutputFields :=
  { procName := some "cat", procCmdline := some "cat /etc/shadow",
    procPname := some "bash", userUid := some "0",
    fdName := some "/etc/shadow", fdSip := none }

/-- Scenario event 2: an ordinary-priority event whose `fd.name` contains
`"/etc/shadow"`; its rule name is not on the denylist. -/
def shadowEvent : SecurityEvent :=
  { Timestamp := 1001, Priority := "Warning", Rule := "Read sensitive file untrusted",
    Output := "file opened", Source := "syscall", Tags := [],
    Fields := some shadowFields, Container := sampleContainer }

/-- Scenario event 3: entirely benign. -/
def benignEvent : SecurityEvent :=
  { Timestamp := 1002, Priority := "Notice", Rule := "Ordinary activity",
    Output := "ls", Source := "syscall", Tags := [],
    Fields := some { emptyFields with procName := some "ls" },
    Container := sampleContainer }

/-- A monitor with queue capacity 10 and a fresh processor, before
ingestion. -/
def scenarioMonitor : MonitorState :=
  { queueCapacity := 10, queue := [], processor := initialProcessorState, log := [] }

/-- The monitor after the ingestion loop enqueued the three scenario
events (capacity 10, so all three sends succeed). -/
def scenarioAfterIngest : MonitorState :=
  enqueueFalcoEvent (enqueueFalcoEvent (enqueueFalcoEvent scenarioMonitor criticalEvent)
    shadowEvent) benignEvent

/-- The processor after the single worker (worker count 1) drained the
queue; all three events are processed at wall-clock 2000. -/
def scenarioFinal : EventProcessorState :=
  runWorker scenarioAfterIngest.processor
    (scenarioAfterIngest.queue.map (fun event => ((2000 : Int), event)))

/-- A concrete event whose `output_fields` carry no string-valued
`proc.name` (here: a nil fields map). -/
def noProcNameEvent : SecurityEvent :=
  { Timestamp := 500, Priority := "Notice", Rule := "Ordinary activity",
    Output := "", Source := "syscall", Tags := [], Fields := none,
    Container := sampleContainer }

/-- A concrete event matching a denylisted rule name and carrying a
suspicious process name, whose heuristic score (30 + 40 = 70, for the
sensitive file and the tool name) stays below 95. -/
def netcatEvent : SecurityEvent :=
  { Timestamp := 600, Priority := "Warning", Rule := "Netcat Remote Code Execution",
    Output := "nc spawned", Source := "syscall", Tags := [],
    Fields := some { emptyFields with procName := some "nc", fdName := some "/etc/passwd" },
    Container := sampleContainer }

/-- A record the retention policy rejects: severity `"low"`, risk score
`99` (= the source's `0.99`), no incident type. -/
def lowSeverityRecord : ForensicRecord :=
  { ID := "r1", Timestamp := 400, IncidentType := "", Severity := "low", RiskScore := 99 }

/-- A monitor whose queue (capacity 2) is already full. -/
def fullMonitor : MonitorState :=
  { queueCapacity := 2, queue := [criticalEvent, benignEvent],
    processor := initialProcessorState, log := [] }

/-! ## Helper lemmas -/

/-- A `List.any` over `(· == a)` tests is membership. -/
lemma any_beq_iff_mem (l : List String) (a : String) :
    (l.any fun x => a == x) = true ↔ a ∈ l := by
  induction l with
  | nil => simp
  | cons b rest ih => simp [List.any_cons, ih, beq_iff_eq]

/-- `isKnownThreat` holds exactly for critical/emergency priority or a
denylisted rule name. -/
lemma isKnownThreat_iff (event : SecurityEvent) :
    isKnownThreat event = true ↔
      event.Priority = "Critical" ∨ event.Priority = "Emergency" ∨
        event.Rule ∈ knownThreats := by
  simp only [isKnownThreat]
  split_ifs with h
  · simp only [Bool.or_eq_true, beq_iff_eq] at h
    simp [h.elim Or.inl (fun h2 => Or.inr (Or.inl h2))]
  · simp only [Bool.or_eq_true, beq_iff_eq, not_or] at h
    simp [any_beq_iff_mem, h.1, h.2]

/-- The verdict `processEvent` builds: the risk score is the max of the
rule-based score and the heuristic score, and the anomaly flag is the
disjunction of the two trigger conditions. -/
lemma processEvent_spec (st : EventProcessorState) (now : Int) (event : SecurityEvent) :
    (processEvent st now event).2.1.RiskScore =
      max (if isKnownThreat event then (95 : ℤ) else 0)
        (getAIRiskScore (Extract st.processFrequency event).1) ∧
    (processEvent st now event).2.1.Anomaly =
      (isKnownThreat event ||
        decide ((75 : ℤ) < getAIRiskScore (Extract st.processFrequency event).1)) := by
  by_cases hk : isKnownThreat event
  · by_cases h95 : (95 : ℤ) < getAIRiskScore (Extract st.processFrequency event).1
    · have h75 : (75 : ℤ) < getAIRiskScore (Extract st.processFrequency event).1 := by
        omega
      simp [processEvent, storeForensicData, hk, h95, h75, gt_iff_lt]
      omega
    · by_cases h75 : (75 : ℤ) < getAIRiskScore (Extract st.processFrequency event).1 <;>
        · simp [processEvent, storeForensicData, hk, h95, h75, gt_iff_lt]
          omega
  · by_cases h0 : (0 : ℤ) < getAIRiskScore (Extract st.processFrequency event).1
    · by_cases h75 : (75 : ℤ) < getAIRiskScore (Extract st.processFrequency event).1 <;>
        · simp [processEvent, storeForensicData, hk, h0, h75, gt_iff_lt]
          omega
    · have h75 : ¬ (75 : ℤ) < getAIRiskScore (Extract st.processFrequency event).1 := by
        omega
      simp [processEvent, storeForensicData, hk, h0, h75, gt_iff_lt]
      omega

/-- The heuristic score as the closed-form sum of its four weighted
indicators. -/
lemma getAIRiskScore_closed_form (features : BehavioralFeatures) :
    getAIRiskScore features =
      (if features.SensitiveFiles.length > 0 then (30 : ℤ) else 0) +
      (if features.NetworkConnCount > 10 then (20 : ℤ) else 0) +
      (if features.FileAccessCount > 50 then (20 : ℤ) else 0) +
      (if features.ProcessName ∈ suspiciousProcesses then (40 : ℤ) else 0) := by
  by_cases hm : features.ProcessName ∈ suspiciousProcesses
  · have ha : (suspiciousProcesses.any fun proc => features.ProcessName == proc) = true := by
      simpa [any_beq_iff_mem] using hm
    simp only [getAIRiskScore, ha, if_pos hm, if_true]
    split_ifs <;> omega
  · have ha : (suspiciousProcesses.any fun proc => features.ProcessName == proc) = false := by
      rcases h : (suspiciousProcesses.any fun proc => features.ProcessName == proc) with _ | _
      · rfl
      · exact absurd ((any_beq_iff_mem _ _).mp h) hm
    simp only [getAIRiskScore, ha, if_neg hm, Bool.false_eq_true, if_false]
    split_ifs <;> omega

/-! ## C1: known threats force a high-confidence verdict -/

/-- Claim C1: for an event whose priority is Critical or Emergency, or
whose rule name matches the fixed denylist, the verdict `processEvent`
produces has `Anomaly = true` and risk score at least 95 hundredths
(the source's 0.95). -/
theorem processEvent_knownThreat_high_risk (st : EventProcessorState) (now : Int)
    (event : SecurityEvent)
    (h : event.Priority = "Critical" ∨ event.Priority = "Emergency" ∨
      event.Rule ∈ knownThreats) :
    (processEvent st now event).2.1.Anomaly = true ∧
      (95 : ℤ) ≤ (processEvent st now event).2.1.RiskScore := by
  have hk : isKnownThreat event = true := (isKnownThreat_iff event).mpr h
  obtain ⟨hr, ha⟩ := processEvent_spec st now event
  refine ⟨?_, ?_⟩
  · rw [ha, hk, Bool.true_or]
  · rw [hr, hk]
    simp only [eq_self_iff_true, if_true]
    exact le_max_left (95 : ℤ) _

/-- Witness for C1 at a concrete critical-priority event. -/
theorem processEvent_knownThreat_high_risk_witness :
    (criticalEvent.Priority = "Critical" ∨ criticalEvent.Priority = "Emergency" ∨
      criticalEvent.Rule ∈ knownThreats) ∧
    (processEvent initialProcessorState 0 criticalEvent).2.1.Anomaly = true ∧
      (95 : ℤ) ≤ (processEvent initialProcessorState 0 criticalEvent).2.1.RiskScore :=
  ⟨Or.inl (by decide),
    processEvent_knownThreat_high_risk initialProcessorState 0 criticalEvent
      (Or.inl (by decide))⟩

/-! ## C2: composite risk score -/

/-- Claim C2: the final risk score is `max(rule score, heuristic score)`,
the heuristic score is the un-normalized sum of the four fixed additive
weights (30/20/20/40 hundredths) with no clamping, and an event matching
a denylisted rule name whose heuristic score stays below 95 hundredths
gets final score exactly 95 (the source's 0.95). -/
theorem riskScore_composite (st : EventProcessorState) (now : Int)
    (event : SecurityEvent) :
    ((processEvent st now event).2.1.RiskScore =
      max (if isKnownThreat event then (95 : ℤ) else 0)
        (getAIRiskScore (Extract st.processFrequency event).1)) ∧
    (getAIRiskScore (Extract st.processFrequency event).1 =
      (if (Extract st.processFrequency event).1.SensitiveFiles.length > 0 then (30 : ℤ) else 0) +
      (if (Extract st.processFrequency event).1.NetworkConnCount > 10 then (20 : ℤ) else 0) +
      (if (Extract st.processFrequency event).1.FileAccessCount > 50 then (20 : ℤ) else 0) +
      (if (Extract st.processFrequency event).1.ProcessName ∈ suspiciousProcesses then (40 : ℤ) else 0)) ∧
    (event.Rule ∈ knownThreats →
      getAIRiskScore (Extract st.processFrequency event).1 < 95 →
      (processEvent st now event).2.1.RiskScore = 95) := by
  obtain ⟨hr, -⟩ := processEvent_spec st now event
  refine ⟨hr, getAIRiskScore_closed_form _, fun hrule hlt => ?_⟩
  have hk : isKnownThreat event = true :=
    (isKnownThreat_iff event).mpr (Or.inr (Or.inr hrule))
  rw [hr, hk]
  simp only [eq_self_iff_true, if_true]
  omega

/-- Witness for C2 at a concrete event with a denylisted rule name and a
suspicious process name: the heuristic sums to 70 < 95 and the rule-based
95 wins. -/
theorem riskScore_composite_witness :
    netcatEvent.Rule ∈ knownThreats ∧
    getAIRiskScore (Extract initialProcessorState.processFrequency netcatEvent).1 < 95 ∧
    (processEvent initialProcessorState 0 netcatEvent).2.1.RiskScore = 95 :=
  ⟨by decide, by decide,
    (riskScore_composite initialProcessorState 0 netcatEvent).2.2 (by decide) (by decide)⟩

/-! ## C3: retention policy characterization -/

/-- Claim C3: the retention policy keeps a record iff its severity is
critical or high, or its severity is medium with risk score strictly
above 70 hundredths (the source's 0.7), or its incident type is set and
is not the false-positive sentinel; in particular a critical record with
risk 10 (0.1) is retained and a low-severity record with risk 99 (0.99)
and no incident type is dropped. -/
theorem shouldRetain_characterization :
    (∀ record : ForensicRecord,
        ShouldRetain record = true ↔
          (record.Severity = "critical" ∨ record.Severity = "high") ∨
          (record.Severity = "medium" ∧ 70 < record.RiskScore) ∨
          (record.IncidentType ≠ "" ∧ record.IncidentType ≠ "false-positive")) ∧
    ShouldRetain { ID := "r2", Timestamp := 1, IncidentType := "",
                   Severity := "critical", RiskScore := 10 } = true ∧
    ShouldRetain lowSeverityRecord = false := by
  refine ⟨fun record => ?_, by decide, by decide⟩
  simp only [ShouldRetain]
  split_ifs with h1 h2 h3 <;>
    simp_all [Bool.or_eq_true, Bool.and_eq_true, beq_iff_eq, bne_iff_ne,
      decide_eq_true_iff]

/-! ## C8: range query over the vault directory -/

/-- Claim C8: `ListRecords` returns exactly the parseable records whose
timestamp lies strictly inside the open interval `(from, to)`, and a
corrupt record file anywhere in the directory is skipped silently — the
query over a listing with the corrupt file removed is unchanged, so a
corrupt file never aborts a range query. -/
theorem listRecords_open_interval :
    (∀ (files : List FileEntry) (fromT toT : Int) (r : ForensicRecord),
        r ∈ ListRecords files fromT toT ↔
          FileEntry.record r ∈ files ∧ fromT < r.Timestamp ∧ r.Timestamp < toT) ∧
    (∀ (pre post : List FileEntry) (fromT toT : Int),
        ListRecords (pre ++ FileEntry.corrupt :: post) fromT toT =
          ListRecords (pre ++ post) fromT toT) := by
  constructor
  · intro files fromT toT r
    induction files with
    | nil => simp [ListRecords]
    | cons f rest ih =>
      cases f with
      | corrupt => simpa [ListRecords] using ih
      | record q =>
        by_cases hq : fromT < q.Timestamp ∧ q.Timestamp < toT
        · simp only [ListRecords, if_pos hq, List.mem_cons]
          constructor
          · rintro (rfl | hr)
            · exact ⟨Or.inl rfl, hq⟩
            · exact ⟨Or.inr (ih.mp hr).1, (ih.mp hr).2⟩
          · rintro ⟨hmem | hmem, hb⟩
            · cases hmem
              exact Or.inl rfl
            · exact Or.inr (ih.mpr ⟨hmem, hb⟩)
        · simp only [ListRecords, if_neg hq, List.mem_cons]
          constructor
          · intro hr
            exact ⟨Or.inr (ih.mp hr).1, (ih.mp hr).2⟩
          · rintro ⟨hmem | hmem, hb⟩
            · cases hmem
              exact absurd hb hq
            · exact ih.mpr ⟨hmem, hb⟩
  · intro pre post fromT toT
    induction pre with
    | nil => simp [ListRecords]
    | cons f rest ih =>
      cases f with
      | corrupt => simpa [ListRecords] using ih
      | record q =>
        simp only [List.cons_append, ListRecords]
        split <;> simp [ih]

/-! ## C4: policy rejection in the vault store path -/

/-- Claim C4 counterexample: the source signals a policy rejection through
the same non-nil Go `error` return every fault uses — `StoreRecord` on a
policy-rejected record yields an error value, refuting that the rejection
is "a `PolicyRejected` outcome that is not a fault"; the only
distinguishing mark is the message string.  (The no-file-written half of
the claim does hold: the directory is unchanged.) -/
theorem storeRecord_rejection_is_error_counterexample :
    ((StoreRecord [] 5 "gid1" lowSeverityRecord).2).isSome = true ∧
    (StoreRecord [] 5 "gid1" lowSeverityRecord).1 = [] := by decide

/-- Claim C4 as amended: for every record the retention policy rejects,
`StoreRecord` returns the unchanged directory together with the non-nil
Go error `"record does not meet retention criteria"` — an ordinary error
value on the same channel as faults, distinguishable only by its fixed
message — and writes no file. -/
theorem storeRecord_policy_rejection (files : List FileEntry) (now : Int)
    (genId : String) (record : ForensicRecord)
    (h : ShouldRetain record = false) :
    StoreRecord files now genId record =
      (files, some "record does not meet retention criteria") := by
  have h1 : ShouldRetain { record with ID := genId } = false := h
  have h2 : ShouldRetain { record with ID := genId, Timestamp := now } = false := h
  have h3 : ShouldRetain { record with Timestamp := now } = false := h
  simp only [StoreRecord]
  split_ifs <;> simp_all

/-- Witness for the amended C4 at a concrete low-severity record. -/
theorem storeRecord_policy_rejection_witness :
    ShouldRetain lowSeverityRecord = false ∧
    StoreRecord [] 5 "gid1" lowSeverityRecord =
      ([], some "record does not meet retention criteria") :=
  ⟨by decide, storeRecord_policy_rejection [] 5 "gid1" lowSeverityRecord (by decide)⟩

/-! ## C5: non-blocking drop-newest enqueue -/

/-- Claim C5 counterexample: enqueueing into a full queue leaves every
counter of the system (the four `ProcessorMetrics` fields, the only
counters the monitor and processor maintain) unchanged while the event is
dropped and the warning is logged — refuting that "a drop counter is
incremented"; the source's `default` branch only prints. -/
theorem enqueue_full_no_drop_counter_counterexample :
    (enqueueFalcoEvent fullMonitor benignEvent).processor.Metrics =
      fullMonitor.processor.Metrics ∧
    (enqueueFalcoEvent fullMonitor benignEvent).queue = fullMonitor.queue ∧
    (enqueueFalcoEvent fullMonitor benignEvent).log ≠ fullMonitor.log := by decide

/-- Claim C5 as amended: enqueueing into a full queue does not block (the
enqueue is a total function of the state), retains the already-enqueued
items unchanged, drops the new item, and records the drop only as a
warning log line — no drop counter exists and no counter changes. -/
theorem enqueue_full_drops_and_logs (st : MonitorState) (event : SecurityEvent)
    (h : st.queueCapacity ≤ st.queue.length) :
    enqueueFalcoEvent st event =
      { st with log := st.log ++ ["Warning: event channel full, dropping event"] } := by
  simp only [enqueueFalcoEvent]
  rw [if_neg (by omega)]

/-- Witness for the amended C5 at a concrete full queue of capacity 2. -/
theorem enqueue_full_drops_and_logs_witness :
    fullMonitor.queueCapacity ≤ fullMonitor.queue.length ∧
    enqueueFalcoEvent fullMonitor benignEvent =
      { fullMonitor with
          log := fullMonitor.log ++ ["Warning: event channel full, dropping event"] } :=
  ⟨by decide, enqueue_full_drops_and_logs fullMonitor benignEvent (by decide)⟩

/-! ## C6: end-to-end scenario -/

/-- Claim C6 counterexample: in the scenario (worker count 1, queue
capacity 10, the three scenario events), the pipeline does NOT produce
2 stored records with `AnomaliesDetected = 2`: the `/etc/shadow` event
scores only 30 hundredths (0.3), below the 75-hundredth anomaly
threshold, and `storeForensicData` is a logging placeholder that writes
nothing to the vault. -/
theorem endToEnd_scenario_counterexample :
    ¬ (scenarioFinal.Metrics.AnomaliesDetected = 2 ∧
        scenarioFinal.vaultFiles.length = 2 ∧
        scenarioFinal.Metrics.ProcessedEvents = 3) := by decide

/-- Claim C6 as amended: the scenario yields `ProcessedEvents = 3` as
claimed, but `AnomaliesDetected = 1` (only the Critical event) and zero
stored forensic records (the vault is untouched; the single anomaly is
only logged). -/
theorem endToEnd_scenario_actual :
    scenarioFinal.Metrics.TotalEvents = 3 ∧
    scenarioFinal.Metrics.ProcessedEvents = 3 ∧
    scenarioFinal.Metrics.AnomaliesDetected = 1 ∧
    scenarioFinal.Metrics.ErrorCount = 0 ∧
    scenarioFinal.vaultFiles = [] ∧
    scenarioFinal.anomalyLog.length = 1 := by decide

/-! ## C7: repeated extraction and the frequency counter -/

/-- Incrementing the frequency table raises the stored count for that
process name by exactly one. -/
lemma getProcessFrequency_update (table : ProcessFrequencyTable) (proc : String) :
    getProcessFrequency (updateProcessFrequency table proc) proc =
      getProcessFrequency table proc + 1 := by
  induction table with
  | nil => simp [updateProcessFrequency, getProcessFrequency]
  | cons qn rest ih =>
    obtain ⟨q, n⟩ := qn
    by_cases hq : q = proc <;>
      simp [updateProcessFrequency, getProcessFrequency, hq, ih]

/-- Claim C7 counterexample: for an event without a string-valued
`proc.name` output field, two successive extractions return fully
identical features — the frequency counter stays at 0 and does not
increase by 1, refuting the claim for arbitrary events. -/
theorem extract_twice_no_procName_counterexample :
    (Extract (Extract [] noProcNameEvent).2 noProcNameEvent).1.ProcessFrequency ≠
      (Extract [] noProcNameEvent).1.ProcessFrequency + 1 ∧
    (Extract (Extract [] noProcNameEvent).2 noProcNameEvent).1 =
      (Extract [] noProcNameEvent).1 := by decide

/-- Claim C7 as amended: for every event whose output fields carry a
string-valued `proc.name`, extracting twice in sequence (threading the
frequency table, with no intervening update) yields features identical in
every field except `ProcessFrequency`, which is exactly one larger on the
second call.  (For events without such a field the two feature records
are fully identical.) -/
theorem extract_twice_increments_frequency (table : ProcessFrequencyTable)
    (event : SecurityEvent) (flds : OutputFields) (proc : String)
    (hf : event.Fields = some flds) (hp : flds.procName = some proc) :
    (Extract (Extract table event).2 event).1 =
      { (Extract table event).1 with
          ProcessFrequency := (Extract table event).1.ProcessFrequency + 1 } := by
  obtain ⟨pn, pc, pp, uu, fdn, fds⟩ := flds
  have hpn : pn = some proc := hp
  subst hpn
  simp only [Extract, hf]
  cases pc <;> cases pp <;> cases uu <;> cases fdn <;> cases fds <;>
    simp [extractOptionalFields, getProcessFrequency_update] <;>
    split_ifs <;>
    simp [getProcessFrequency_update]

/-- Witness for the amended C7 at the concrete shadow event, whose
`proc.name` is `"cat"`. -/
theorem extract_twice_increments_frequency_witness :
    shadowEvent.Fields = some shadowFields ∧ shadowFields.procName = some "cat" ∧
    (Extract (Extract [] shadowEvent).2 shadowEvent).1 =
      { (Extract [] shadowEvent).1 with
          ProcessFrequency := (Extract [] shadowEvent).1.ProcessFrequency + 1 } :=
  ⟨rfl, rfl, extract_twice_increments_frequency [] shadowEvent shadowFields "cat" rfl rfl⟩

/-! ## C9: shutdown ordering -/

/-- Claim C9 counterexample: the trace of `Monitor.Stop` contains no join
on any processing worker at all — its `wg.Wait()` covers only the
ingestion task and the metrics reporter (the two tasks registered on the
monitor's WaitGroup) — yet it does close the queue, refuting that the
queue is closed only after every worker has been joined. -/
theorem stop_closes_queue_without_worker_join_counterexample :
    stopSequence.any ShutdownAction.isWorkerWait = false ∧
    ShutdownAction.closeQueue ∈ stopSequence := by decide

/-- Claim C9 as amended: `Stop` cancels the shared token, joins the
ingestion task and the metrics reporter, and then closes the queue; it
performs no join on the processing workers (their WaitGroup is waited on
only by a detached goroutine inside `EventProcessor.Start`), so the queue
can be closed while workers are still running — but a worker receiving
from the closed queue treats it as normal termination and exits with its
state untouched, not as an error. -/
theorem stop_sequence_behavior :
    stopSequence =
      [ShutdownAction.cancelToken, ShutdownAction.waitFor TaskKind.ingestion,
        ShutdownAction.waitFor TaskKind.metricsReporter, ShutdownAction.closeQueue] ∧
    stopSequence.all (fun action => ! action.isWorkerWait) = true ∧
    (∀ st : EventProcessorState,
        workerIteration st WorkerSignal.channelClosed = WorkerOutcome.exited st) :=
  ⟨rfl, rfl, fun _ => rfl⟩

/-! ## C10: worker-loop counter invariant -/

/-- `processEvent` leaves `TotalEvents`, `ProcessedEvents` and
`ErrorCount` untouched and never decreases `AnomaliesDetected`. -/
lemma processEvent_metrics_counters (st : EventProcessorState) (now : Int)
    (event : SecurityEvent) :
    (processEvent st now event).1.Metrics.TotalEvents = st.Metrics.TotalEvents ∧
    (processEvent st now event).1.Metrics.ProcessedEvents = st.Metrics.ProcessedEvents ∧
    (processEvent st now event).1.Metrics.ErrorCount = st.Metrics.ErrorCount ∧
    st.Metrics.AnomaliesDetected ≤ (processEvent st now event).1.Metrics.AnomaliesDetected := by
  by_cases hk : isKnownThreat event <;>
    by_cases h75 : (75 : ℤ) < getAIRiskScore (Extract st.processFrequency event).1 <;>
      simp [processEvent, storeForensicData, hk, h75, gt_iff_lt, apply_ite, ite_self]
  all_goals omega

/-- One pass of the worker loop body: `TotalEvents` rises by exactly one,
exactly one of `ProcessedEvents`/`ErrorCount` rises by exactly one, and
no counter decreases. -/
lemma workerStep_metrics (st : EventProcessorState) (now : Int)
    (event : SecurityEvent) :
    (workerStep st now event).Metrics.TotalEvents = st.Metrics.TotalEvents + 1 ∧
    (workerStep st now event).Metrics.ProcessedEvents +
        (workerStep st now event).Metrics.ErrorCount =
      st.Metrics.ProcessedEvents + st.Metrics.ErrorCount + 1 ∧
    st.Metrics.ProcessedEvents ≤ (workerStep st now event).Metrics.ProcessedEvents ∧
    st.Metrics.ErrorCount ≤ (workerStep st now event).Metrics.ErrorCount ∧
    st.Metrics.AnomaliesDetected ≤ (workerStep st now event).Metrics.AnomaliesDetected := by
  have hm := processEvent_metrics_counters
    { st with Metrics := { st.Metrics with TotalEvents := st.Metrics.TotalEvents + 1 } }
    now event
  simp only [workerStep]
  rcases hpe : processEvent
      { st with Metrics := { st.Metrics with TotalEvents := st.Metrics.TotalEvents + 1 } }
      now event with ⟨st1, p, err⟩
  rw [hpe] at hm
  simp only at hm
  cases err <;> simp <;> omega

/-- Claim C10: along any event sequence handled sequentially by the
worker loop, the invariant `TotalEvents = ProcessedEvents + ErrorCount`
is preserved from any state satisfying it (hence holds after every
prefix, starting from the zeroed initial counters), all four counters are
monotonically non-decreasing, and each single event raises `TotalEvents`
by exactly one and exactly one of `ProcessedEvents`/`ErrorCount` by
exactly one. -/
theorem worker_metrics_invariant (st : EventProcessorState)
    (evs : List (Int × SecurityEvent)) :
    (st.Metrics.TotalEvents = st.Metrics.ProcessedEvents + st.Metrics.ErrorCount →
      (runWorker st evs).Metrics.TotalEvents =
        (runWorker st evs).Metrics.ProcessedEvents +
          (runWorker st evs).Metrics.ErrorCount) ∧
    st.Metrics.TotalEvents ≤ (runWorker st evs).Metrics.TotalEvents ∧
    st.Metrics.ProcessedEvents ≤ (runWorker st evs).Metrics.ProcessedEvents ∧
    st.Metrics.AnomaliesDetected ≤ (runWorker st evs).Metrics.AnomaliesDetected ∧
    st.Metrics.ErrorCount ≤ (runWorker st evs).Metrics.ErrorCount ∧
    (∀ (now : Int) (event : SecurityEvent),
      (workerStep st now event).Metrics.TotalEvents = st.Metrics.TotalEvents + 1 ∧
      (workerStep st now event).Metrics.ProcessedEvents +
          (workerStep st now event).Metrics.ErrorCount =
        st.Metrics.ProcessedEvents + st.Metrics.ErrorCount + 1) := by
  induction evs generalizing st with
  | nil =>
    exact ⟨fun h => h, le_refl _, le_refl _, le_refl _, le_refl _,
      fun now event =>
        ⟨(workerStep_metrics st now event).1, (workerStep_metrics st now event).2.1⟩⟩
  | cons ev rest ih =>
    obtain ⟨now, event⟩ := ev
    have hws := workerStep_metrics st now event
    have hih := ih (workerStep st now event)
    simp only [runWorker]
    refine ⟨fun h => hih.1 (by omega), ?_, ?_, ?_, ?_,
      fun n e => ⟨(workerStep_metrics st n e).1, (workerStep_metrics st n e).2.1⟩⟩
    · have := hih.2.1
      omega
    · have := hih.2.2.1
      omega
    · have := hih.2.2.2.1
      omega
    · have := hih.2.2.2.2.1
      omega

/-- Witness for C10: the invariant, instantiated at the zeroed initial
state and a one-event sequence. -/
theorem worker_metrics_invariant_witness :
    initialProcessorState.Metrics.TotalEvents =
        initialProcessorState.Metrics.ProcessedEvents +
          initialProcessorState.Metrics.ErrorCount ∧
    (runWorker initialProcessorState [((2000 : Int), shadowEvent)]).Metrics.TotalEvents =
      (runWorker initialProcessorState [((2000 : Int), shadowEvent)]).Metrics.ProcessedEvents +
        (runWorker initialProcessorState [((2000 : Int), shadowEvent)]).Metrics.ErrorCount :=
  ⟨by decide,
    (worker_metrics_invariant initialProcessorState [((2000 : Int), shadowEvent)]).1
      (by decide)⟩
